import Mathlib

/-!
Shallow embedding of `src/ephemeris_calculator.py` (class SwissEphemerisCalculator).

Real-valued quantities (ecliptic longitudes, latitudes, distances, speeds,
Julian Days) are modelled by `ℚ`.  The external Swiss Ephemeris engine
(`swe.calc_ut`) is modelled by oracle functions passed as parameters: a call
that raises or returns a negative status is `none`.  Python's `%`, `int()`,
`//`, `round(x, n)` and list indexing (including negative indices and
`IndexError`) are modelled explicitly below.
-/

namespace Ephemeris

attribute [local semireducible] Rat.add Rat.mul Rat.inv Rat.sub Rat.ofScientific

/-- Python `x % m` on numbers: the remainder with the sign of the divisor,
`x - m * floor (x / m)`. -/
def pymod (x m : ℚ) : ℚ := x - m * ⌊x / m⌋

/-- Python `int(q)`: truncation toward zero. -/
def pyint (q : ℚ) : ℤ := if 0 ≤ q then ⌊q⌋ else -⌊-q⌋

/-- Python list indexing `l[i]`: non-negative indices from the front,
negative indices from the back, `none` models an `IndexError`. -/
def pyget (l : List α) (i : ℤ) : Option α :=
  if 0 ≤ i then
    (if i < l.length then l[i.toNat]? else none)
  else
    (if -(l.length : ℤ) ≤ i then l[(l.length + i).toNat]? else none)

/-- Round to the nearest integer, ties to even (Python `round`). -/
def roundHalfEven (x : ℚ) : ℤ :=
  let f := ⌊x⌋
  let r := x - f
  if r < 1 / 2 then f
  else if 1 / 2 < r then f + 1
  else if f % 2 = 0 then f else f + 1

/-- Python `round(x, n)` for `n` decimal digits (on the idealized rationals). -/
def pyround (n : ℕ) (x : ℚ) : ℚ := (roundHalfEven (x * 10 ^ n) : ℚ) / 10 ^ n

/-- `self.zodiac_signs` (line 40). -/
def zodiac_signs : List String :=
  ["Aries", "Taurus", "Gemini", "Cancer", "Leo", "Virgo",
   "Libra", "Scorpio", "Sagittarius", "Capricorn", "Aquarius", "Pisces"]

/-- `self.zodiac_signs_vi` (line 45). -/
def zodiac_signs_vi : List String :=
  ["Bạch Dương", "Kim Ngưu", "Song Tử", "Cự Giải", "Sư Tử", "Xử Nữ",
   "Thiên Bình", "Thần Nông", "Nhân Mã", "Ma Kết", "Bảo Bình", "Song Ngư"]

/-- The degree symbol used in `degree_formatted`. -/
def degSym : String := "°"

/-- The arc-minute mark (ASCII 39) used in `degree_formatted`. -/
def minSym : String := String.singleton (Char.ofNat 39)

/-- The arc-second mark used in `degree_formatted`. -/
def secSym : String := "\""

/-- Python `f"{n:02d}"` for the (here always non-negative) minute/second field. -/
def pad2 (n : ℤ) : String := if 0 ≤ n ∧ n < 10 then ("0") ++ toString n else toString n

/-- Result record of `get_zodiac_info` (lines 64-71). -/
structure ZodiacInfo where
  sign : String
  sign_vi : String
  sign_index : ℤ
  degree_in_sign : ℚ
  degree_formatted : String
  longitude : ℚ
  deriving DecidableEq, Inhabited

/-- `get_zodiac_info` (lines 54-71).  `sign_index = int(longitude // 30)` is
`⌊longitude / 30⌋`; the table lookups use Python list indexing and `none`
models the `IndexError` raised when the index is out of `[-12, 12)`. -/
def get_zodiac_info (longitude : ℚ) : Option ZodiacInfo :=
  let sign_index : ℤ := ⌊longitude / 30⌋
  let degree_in_sign : ℚ := pymod longitude 30
  let degrees : ℤ := pyint degree_in_sign
  let minutes : ℤ := pyint ((degree_in_sign - degrees) * 60)
  let seconds : ℤ := pyint (((degree_in_sign - degrees) * 60 - minutes) * 60)
  match pyget zodiac_signs sign_index, pyget zodiac_signs_vi sign_index with
  | some s, some sv =>
      some { sign := s, sign_vi := sv, sign_index := sign_index,
             degree_in_sign := degree_in_sign,
             degree_formatted :=
               toString degrees ++ degSym ++ pad2 minutes ++ minSym ++ pad2 seconds ++ secSym,
             longitude := longitude }
  | _, _ => none

/-- `is_retrograde` (lines 73-91).  `calcLon planet_id jd` models
`swe.calc_ut(jd, planet_id, swe.FLG_SWIEPH)[0][0]` (the sampled longitude);
`none` models a raised exception, which the `except` clause maps to `False`. -/
def is_retrograde (calcLon : ℤ → ℚ → Option ℚ) (planet_id : ℤ) (jd : ℚ) : Bool :=
  match calcLon planet_id jd with
  | none => false
  | some pos_now =>
    match calcLon planet_id (jd + 1) with
    | none => false
    | some pos_next =>
      let speed := pos_next - pos_now
      let speed := if 180 < speed then speed - 360 else if speed < -180 then speed + 360 else speed
      decide (speed < 0)

/-- The per-planet configuration stored in `self.planets` (lines 25-37). -/
structure PlanetInfo where
  id : ℤ
  symbol : String
  name_vi : String
  deriving DecidableEq, Inhabited

/-- `self.planets` (lines 25-37), with the Swiss Ephemeris planet ids
`swe.SUN = 0`, ..., `swe.PLUTO = 9`, `swe.MEAN_NODE = 10`.  Python dicts
iterate in insertion order, so a list of key/value pairs is faithful. -/
def planets : List (String × PlanetInfo) :=
  [("Sun", { id := 0, symbol := "☉", name_vi := "Mặt Trời" }),
   ("Moon", { id := 1, symbol := "☽", name_vi := "Mặt Trăng" }),
   ("Mercury", { id := 2, symbol := "☿", name_vi := "Sao Thủy" }),
   ("Venus", { id := 3, symbol := "♀", name_vi := "Sao Kim" }),
   ("Mars", { id := 4, symbol := "♂", name_vi := "Sao Hỏa" }),
   ("Jupiter", { id := 5, symbol := "♃", name_vi := "Sao Mộc" }),
   ("Saturn", { id := 6, symbol := "♄", name_vi := "Sao Thổ" }),
   ("Uranus", { id := 7, symbol := "♅", name_vi := "Sao Thiên Vương" }),
   ("Neptune", { id := 8, symbol := "♆", name_vi := "Sao Hải Vương" }),
   ("Pluto", { id := 9, symbol := "♇", name_vi := "Sao Diêm Vương" }),
   ("Rahu", { id := 10, symbol := "☊", name_vi := "Rahu (Bắc Giao Điểm)" })]

/-- The six-tuple returned by a successful
`swe.calc_ut(jd, id, swe.FLG_SWIEPH | swe.FLG_SIDEREAL)` call (line 101). -/
structure CalcResult where
  lon : ℚ
  lat : ℚ
  dist : ℚ
  lonSpeed : ℚ
  latSpeed : ℚ
  distSpeed : ℚ
  deriving DecidableEq, Inhabited

/-- One value of the `positions` dict built by `calculate_planetary_positions`
(lines 112-128 and 140-156). -/
structure PlanetPos where
  longitude : ℚ
  latitude : ℚ
  distance : ℚ
  longitude_speed : ℚ
  latitude_speed : ℚ
  distance_speed : ℚ
  zodiac_sign : String
  zodiac_sign_vi : String
  sign_index : ℤ
  degree_in_sign : ℚ
  degree_formatted : String
  retrograde : Bool
  motion : String
  symbol : String
  name_vi : String
  deriving DecidableEq, Inhabited

/-- A snapshot: the `positions` dict, as an insertion-ordered key/value list. -/
abbrev Snapshot := List (String × PlanetPos)

/-- The loop body of `calculate_planetary_positions` (lines 98-132) for one
planet.  `sid id` models `swe.calc_ut(jd, id, swe.FLG_SWIEPH | swe.FLG_SIDEREAL)`,
with `none` standing for a raised exception or a negative return status; both
`continue` (the planet is omitted).  A `get_zodiac_info` `IndexError` is also
caught by the `except` clause, hence the `Option.bind`. -/
def calcEntry (jd : ℚ) (sid : ℤ → Option CalcResult) (calcLon : ℤ → ℚ → Option ℚ)
    (pi : String × PlanetInfo) : Option (String × PlanetPos) :=
  (sid pi.2.id).bind fun pos =>
    (get_zodiac_info pos.lon).map fun z =>
      (pi.1,
       { longitude := pos.lon, latitude := pos.lat, distance := pos.dist,
         longitude_speed := pos.lonSpeed, latitude_speed := pos.latSpeed,
         distance_speed := pos.distSpeed,
         zodiac_sign := z.sign, zodiac_sign_vi := z.sign_vi,
         sign_index := z.sign_index, degree_in_sign := z.degree_in_sign,
         degree_formatted := z.degree_formatted,
         retrograde := is_retrograde calcLon pi.2.id jd,
         motion := if is_retrograde calcLon pi.2.id jd then ("R") else ("D"),
         symbol := pi.2.symbol, name_vi := pi.2.name_vi })

/-- The `positions` dict after the planet loop (lines 96-132), before the
Ketu derivation. -/
def mainPositions (jd : ℚ) (sid : ℤ → Option CalcResult) (calcLon : ℤ → ℚ → Option ℚ) :
    Snapshot :=
  planets.filterMap (calcEntry jd sid calcLon)

/-- `calculate_planetary_positions` (lines 93-158).  The Ketu block
(lines 134-156) runs outside any `try`, so a `get_zodiac_info` failure there
would escape the function: `none` models that (provably unreachable) raise. -/
def calculate_planetary_positions (jd : ℚ) (sid : ℤ → Option CalcResult)
    (calcLon : ℤ → ℚ → Option ℚ) : Option Snapshot :=
  let positions := mainPositions jd sid calcLon
  match List.lookup ("Rahu") positions with
  | none => some positions
  | some rahu =>
    let ketu_long := pymod (rahu.longitude + 180) 360
    match get_zodiac_info ketu_long with
    | none => none
    | some kz =>
      some (positions ++
        [("Ketu",
          { longitude := ketu_long, latitude := -rahu.latitude,
            distance := rahu.distance,
            longitude_speed := -rahu.longitude_speed,
            latitude_speed := -rahu.latitude_speed,
            distance_speed := rahu.distance_speed,
            zodiac_sign := kz.sign, zodiac_sign_vi := kz.sign_vi,
            sign_index := kz.sign_index, degree_in_sign := kz.degree_in_sign,
            degree_formatted := kz.degree_formatted,
            retrograde := rahu.retrograde, motion := rahu.motion,
            symbol := "☋", name_vi := "Ketu (Nam Giao Điểm)" })])

/-- One record appended to `aspects` by `detect_aspects` (lines 305-317). -/
structure AspectEvent where
  event : String
  type : String
  planet1 : String
  planet1_sign : String
  planet1_degree : String
  planet2 : String
  planet2_sign : String
  planet2_degree : String
  exact_angle : ℚ
  difference : ℚ
  orb : ℚ
  deriving DecidableEq, Inhabited

/-- The `aspect_types` dict (lines 284-290), in insertion order. -/
def aspect_types : List (String × ℚ) :=
  [("Conjunction", 0), ("Opposition", 180), ("Square", 90), ("Trine", 120), ("Sextile", 60)]

/-- The shortest-arc angular difference of lines 300-302:
`diff = abs(lon1 - lon2) % 360`, reflected when above 180. -/
def shortArc (lon1 lon2 : ℚ) : ℚ :=
  let diff := pymod |lon1 - lon2| 360
  if 180 < diff then 360 - diff else diff

/-- The inner body of `detect_aspects` for one `i < j` pair (lines 294-317),
including the Rahu/Ketu skip (`set([p1, p2]) == set(['Rahu', 'Ketu'])`). -/
def pairAspects (p1 p2 : String × PlanetPos) (orbArg : ℚ) : List AspectEvent :=
  if (p1.1 = "Rahu" ∧ p2.1 = "Ketu") ∨ (p1.1 = "Ketu" ∧ p2.1 = "Rahu") then []
  else
    let diff := shortArc p1.2.longitude p2.2.longitude
    aspect_types.filterMap fun ta =>
      if |diff - ta.2| ≤ orbArg then
        some { event := "Aspect", type := ta.1,
               planet1 := p1.1, planet1_sign := p1.2.zodiac_sign,
               planet1_degree := p1.2.degree_formatted,
               planet2 := p2.1, planet2_sign := p2.2.zodiac_sign,
               planet2_degree := p2.2.degree_formatted,
               exact_angle := ta.2, difference := pyround 4 diff,
               orb := pyround 4 |diff - ta.2| }
      else none

/-- All `i < j` pairs of a list, in the iteration order of the two nested
loops of lines 292-293. -/
def allPairs : List α → List (α × α)
  | [] => []
  | x :: xs => (xs.map fun y => (x, y)) ++ allPairs xs

/-- `detect_aspects` (lines 282-318); default `orb` is `1.0`. -/
def detect_aspects (positions : Snapshot) (orbArg : ℚ := 1) : List AspectEvent :=
  (allPairs positions).flatMap fun pq => pairAspects pq.1 pq.2 orbArg

/-- One record appended to `ingress_events` by `detect_ingress` (lines 327-334). -/
structure IngressEvent where
  event : String
  planet : String
  from_sign : String
  to_sign : String
  degree : String
  longitude : ℚ
  deriving DecidableEq, Inhabited

/-- `detect_ingress` (lines 321-335).  `prev = none` models
`prev_positions=None`; the emptiness test mirrors Python's truthiness check
`if prev_positions:` which is also false for an empty dict. -/
def detect_ingress (positions : Snapshot) (prev : Option Snapshot := none) :
    List IngressEvent :=
  match prev with
  | none => []
  | some prev_positions =>
    if prev_positions.isEmpty then []
    else
      positions.filterMap fun pp =>
        (List.lookup pp.1 prev_positions).bind fun ppos =>
          if pp.2.sign_index ≠ ppos.sign_index then
            some { event := "Ingress", planet := pp.1,
                   from_sign := ppos.zodiac_sign, to_sign := pp.2.zodiac_sign,
                   degree := pp.2.degree_formatted,
                   longitude := pyround 6 pp.2.longitude }
          else none

/-- The ingress accumulation of the grid loop in `calculate_monthly_data`
(lines 177-201): `prev_positions` starts as `None` and is reassigned to the
current snapshot on every iteration, whether or not events were emitted. -/
def ingressStream : List Snapshot → Option Snapshot → List IngressEvent
  | [], _ => []
  | s :: rest, prev => detect_ingress s prev ++ ingressStream rest (some s)

/-- One grid instant of `calculate_monthly_data`: its Julian Day together
with the engine's responses at that instant (the external date grid and
`swe.julday` conversion are abstracted into this per-instant data). -/
structure GridStep where
  jd : ℚ
  sid : ℤ → Option CalcResult
  calcLon : ℤ → ℚ → Option ℚ

/-- The snapshot computed at one grid step (line 189).  `getD []` is harmless:
`calculate_planetary_positions` never returns `none` (`cpp_isSome` below). -/
def snapAt (g : GridStep) : Snapshot :=
  (calculate_planetary_positions g.jd g.sid g.calcLon).getD []

/-- The `ingress_all` stream produced by one run of `calculate_monthly_data`
(lines 160-244), restricted to the ingress events (timestamps dropped). -/
def monthly_ingress (grid : List GridStep) : List IngressEvent :=
  ingressStream (grid.map snapAt) none

/-- Spec §4.B formula `d = floor(degree_in_sign)`. -/
def specDeg (v : ℚ) : ℤ := ⌊v⌋

/-- Spec §4.B formula `m = floor((degree_in_sign − d) × 60)`. -/
def specMin (v : ℚ) : ℤ := ⌊(v - (⌊v⌋ : ℚ)) * 60⌋

/-- Spec §4.B formula `s = floor(((degree_in_sign − d) × 60 − m) × 60)`. -/
def specSec (v : ℚ) : ℤ :=
  ⌊((v - (⌊v⌋ : ℚ)) * 60 - (⌊(v - (⌊v⌋ : ℚ)) * 60⌋ : ℚ)) * 60⌋

/-- What claim C4 asserts of the `get_zodiac_info` result for longitude
`lon`: floor-based sign index and residual, in-range index, table-consistent
sign name, and a formatted string built from the truncated components with
two-digit zero-padded minutes and seconds. -/
def C4Post (lon : ℚ) : Prop :=
  match get_zodiac_info lon with
  | none => False
  | some z =>
    z.sign_index = ⌊lon / 30⌋ ∧ 0 ≤ z.sign_index ∧ z.sign_index < 12 ∧
    z.degree_in_sign = lon - 30 * ⌊lon / 30⌋ ∧
    z.sign = zodiac_signs.getD z.sign_index.toNat ("") ∧
    z.degree_formatted =
      toString (specDeg z.degree_in_sign) ++ degSym ++
      pad2 (specMin z.degree_in_sign) ++ minSym ++
      pad2 (specSec z.degree_in_sign) ++ secSym

/-- What claim C9 asserts: the formatted string is built from the floor
components of `degree_in_sign`, and parsing those components back as
`D + M/60 + S/3600` reproduces `degree_in_sign` to within one arc-second. -/
def C9Post (lon : ℚ) : Prop :=
  match get_zodiac_info lon with
  | none => False
  | some z =>
    z.degree_formatted =
      toString (specDeg z.degree_in_sign) ++ degSym ++
      pad2 (specMin z.degree_in_sign) ++ minSym ++
      pad2 (specSec z.degree_in_sign) ++ secSym ∧
    |((specDeg z.degree_in_sign : ℚ) + (specMin z.degree_in_sign : ℚ) / 60 +
      (specSec z.degree_in_sign : ℚ) / 3600) - z.degree_in_sign| ≤ 1 / 3600

/-- What claim C10 asserts of an in-bounds `get_zodiac_info` result:
non-negative longitudes give an index in `{0..11}`; negative longitudes in
`[-360, 0)` give a negative index whose sign name is silently read from
the tail of the table (Python negative indexing). -/
def C10In (lon : ℚ) : Prop :=
  match get_zodiac_info lon with
  | none => False
  | some z =>
    (0 ≤ lon → 0 ≤ z.sign_index ∧ z.sign_index ≤ 11) ∧
    (lon < 0 → z.sign_index < 0 ∧
      z.sign = zodiac_signs.getD ((12 : ℤ) + z.sign_index).toNat (""))

/-- What claim C1 asserts of a snapshot: Ketu is present iff Rahu is, and
the Ketu record mirrors Rahu exactly as lines 134-156 construct it. -/
def KetuMirror (snap : Snapshot) : Prop :=
  match List.lookup ("Rahu") snap, List.lookup ("Ketu") snap with
  | some r, some k =>
      k.longitude = pymod (r.longitude + 180) 360 ∧ k.latitude = -r.latitude ∧
      k.longitude_speed = -r.longitude_speed ∧ k.distance = r.distance ∧
      k.retrograde = r.retrograde ∧ k.motion = r.motion
  | none, none => True
  | _, _ => False

/-- A concrete engine for the C1 witness: every planet succeeds, with
longitude `100 + id`. -/
def wSid : ℤ → Option CalcResult := fun id => some ⟨100 + id, 1, 2, 3, 1, 1⟩

/-- A retrograde probe that always fails (maps to direct motion). -/
def wLon : ℤ → ℚ → Option ℚ := fun _ _ => none

/-- The concrete snapshot used by the C1 witness. -/
def wSnap : Snapshot := (calculate_planetary_positions 0 wSid wLon).getD []

/-- Modelled from the spec (§4.D): wrap `Δλ` "into `(−180, +180]` by
adding/subtracting 360 when magnitude > 180". -/
def specWrap (x : ℚ) : ℚ :=
  if 180 < |x| then (if 0 < x then x - 360 else x + 360) else x

/-- A bare position record used to build concrete snapshots in witnesses and
counterexamples; only the fields the detectors read are meaningful. -/
def simplePos (lon : ℚ) : PlanetPos :=
  { longitude := lon, latitude := 0, distance := 1, longitude_speed := 0,
    latitude_speed := 0, distance_speed := 0, zodiac_sign := "", zodiac_sign_vi := "",
    sign_index := 0, degree_in_sign := 0, degree_formatted := "", retrograde := false,
    motion := "D", symbol := "", name_vi := "" }

/-- Previous Moon entry for the C3 witness: sign 3 (Cancer). -/
def wMoonPrev : PlanetPos := { simplePos 100 with sign_index := 3, zodiac_sign := "Cancer" }

/-- Current Moon entry for the C3 witness: sign 4 (Leo). -/
def wMoonCur : PlanetPos := { simplePos 125 with sign_index := 4, zodiac_sign := "Leo" }

/-- Previous snapshot for the C3 witness. -/
def wPrevSnap : Snapshot := [("Moon", wMoonPrev)]

/-- Current snapshot for the C3 witness. -/
def wCurSnap : Snapshot := [("Moon", wMoonCur)]

/-- Positions for the C2 witness: spec scenario 3, Sun at 100°, Mercury at
100.8°. -/
def wAspSnap : Snapshot := [("Sun", simplePos 100), ("Mercury", simplePos (504 / 5))]

/-- The single event `detect_aspects` emits on `wAspSnap` with orb 1. -/
def wAspEvent : AspectEvent := (detect_aspects wAspSnap 1).get ⟨0, by decide⟩

/-- Positions refuting the original C8 bound: Sun at 0°, Moon at 75°. -/
def cAspSnap : Snapshot := [("Sun", simplePos 0), ("Moon", simplePos 75)]

/-- Every snapshot entry's sign name is the zodiac-table entry at its sign
index (true of everything `calculate_planetary_positions` builds). -/
def SnapWF (s : Snapshot) : Prop :=
  ∀ p ∈ s, pyget zodiac_signs (Prod.snd p).sign_index = some (Prod.snd p).zodiac_sign

/-- A per-instant engine where only the Moon (id 1) succeeds, at the given
longitude. -/
def mkCalc (lon : ℚ) : ℤ → Option CalcResult :=
  fun id => if id = 1 then some ⟨lon, 0, 1, 0, 0, 0⟩ else none

/-- A per-instant engine where every planet fails. -/
def noCalc : ℤ → Option CalcResult := fun _ => none

/-- A five-step run in which the Moon's engine call fails at the middle
step while the Moon crosses two sign boundaries. -/
def cGrid : List GridStep :=
  [⟨0, mkCalc 75, wLon⟩, ⟨0, mkCalc 95, wLon⟩, ⟨0, noCalc, wLon⟩,
   ⟨0, mkCalc 155, wLon⟩, ⟨0, mkCalc 185, wLon⟩]

/-- A three-step run with the Moon present throughout. -/
def wGrid : List GridStep :=
  [⟨0, mkCalc 75, wLon⟩, ⟨0, mkCalc 95, wLon⟩, ⟨0, mkCalc 125, wLon⟩]

lemma pymod_nonneg (x m : ℚ) (hm : 0 < m) : 0 ≤ pymod x m := by
  have h1 : (⌊x / m⌋ : ℚ) ≤ x / m := Int.floor_le _
  have h2 : m * (⌊x / m⌋ : ℚ) ≤ m * (x / m) := mul_le_mul_of_nonneg_left h1 hm.le
  have h3 : m * (x / m) = x := by field_simp
  unfold pymod
  linarith

lemma pymod_lt (x m : ℚ) (hm : 0 < m) : pymod x m < m := by
  have h1 : x / m < ⌊x / m⌋ + 1 := Int.lt_floor_add_one _
  have h2 : m * (x / m) < m * ((⌊x / m⌋ : ℚ) + 1) := by
    exact (mul_lt_mul_left hm).mpr h1
  have h3 : m * (x / m) = x := by field_simp
  unfold pymod
  nlinarith

lemma pyint_eq_floor {q : ℚ} (h : 0 ≤ q) : pyint q = ⌊q⌋ := if_pos h

lemma pyget_of_nonneg (l : List α) (i : ℤ) (h0 : 0 ≤ i) (h1 : i < l.length) (d : α) :
    pyget l i = some (l.getD i.toNat d) := by
  have hn : i.toNat < l.length := by omega
  unfold pyget
  rw [if_pos h0, if_pos h1, List.getElem?_eq_getElem hn, List.getD_eq_getElem l d hn]

lemma pyget_of_neg (l : List α) (i : ℤ) (h0 : -(l.length : ℤ) ≤ i) (h1 : i < 0) (d : α) :
    pyget l i = some (l.getD ((l.length : ℤ) + i).toNat d) := by
  have hn : ((l.length : ℤ) + i).toNat < l.length := by omega
  unfold pyget
  rw [if_neg (by omega), if_pos h0, List.getElem?_eq_getElem hn,
    List.getD_eq_getElem l d hn]

lemma pyget_none (l : List α) (i : ℤ) (h : (l.length : ℤ) ≤ i ∨ i < -(l.length : ℤ)) :
    pyget l i = none := by
  unfold pyget
  split_ifs <;> first | rfl | (exfalso; omega)

lemma lookup_eq_none_of_forall {β : Type} (key : String) (l : List (String × β))
    (h : ∀ p ∈ l, p.1 ≠ key) : List.lookup key l = none := by
  induction l with
  | nil => rfl
  | cons p t ih =>
    obtain ⟨k, v⟩ := p
    have hk : (key == k) = false := by
      have := h (k, v) (List.mem_cons_self ..)
      simp at this ⊢
      exact fun hkk => this hkk.symm
    simp only [List.lookup, hk]
    exact ih fun q hq => h q (List.mem_cons_of_mem _ hq)

lemma lookup_append {β : Type} (key : String) (l1 l2 : List (String × β)) :
    List.lookup key (l1 ++ l2) =
      match List.lookup key l1 with
      | some v => some v
      | none => List.lookup key l2 := by
  induction l1 with
  | nil => simp [List.lookup]
  | cons p t ih =>
    obtain ⟨k, v⟩ := p
    by_cases hk : key = k
    · subst hk
      simp [List.lookup]
    · have hk2 : (key == k) = false := by simp [hk]
      simp only [List.cons_append, List.lookup, hk2]
      exact ih

lemma lookup_mem {β : Type} {key : String} {l : List (String × β)} {v : β}
    (h : List.lookup key l = some v) : (key, v) ∈ l := by
  induction l with
  | nil => simp [List.lookup] at h
  | cons p t ih =>
    obtain ⟨k, w⟩ := p
    by_cases hk : key = k
    · subst hk
      simp only [List.lookup, beq_self_eq_true] at h
      obtain rfl : w = v := by injection h
      exact List.mem_cons_self ..
    · have hk2 : (key == k) = false := by simp [hk]
      simp only [List.lookup, hk2] at h
      exact List.mem_cons_of_mem _ (ih h)

lemma gzi_fields {lon : ℚ} {z : ZodiacInfo} (h : get_zodiac_info lon = some z) :
    z.sign_index = ⌊lon / 30⌋ ∧ z.degree_in_sign = pymod lon 30 ∧
    pyget zodiac_signs z.sign_index = some z.sign ∧ z.longitude = lon ∧
    z.degree_formatted =
      toString (pyint (pymod lon 30)) ++ degSym ++
      pad2 (pyint ((pymod lon 30 - (pyint (pymod lon 30) : ℚ)) * 60)) ++ minSym ++
      pad2 (pyint (((pymod lon 30 - (pyint (pymod lon 30) : ℚ)) * 60 -
        (pyint ((pymod lon 30 - (pyint (pymod lon 30) : ℚ)) * 60) : ℚ)) * 60)) ++ secSym := by
  simp only [get_zodiac_info] at h
  cases h1 : pyget zodiac_signs ⌊lon / 30⌋ with
  | none => rw [h1] at h; cases h2 : pyget zodiac_signs_vi ⌊lon / 30⌋ <;> rw [h2] at h <;> simp at h
  | some s =>
    cases h2 : pyget zodiac_signs_vi ⌊lon / 30⌋ with
    | none => rw [h1, h2] at h; simp at h
    | some sv =>
      rw [h1, h2] at h
      obtain rfl : _ = z := by injection h
      exact ⟨rfl, rfl, h1, rfl, rfl⟩

lemma gzi_isSome (lon : ℚ) (h0 : -360 ≤ lon) (h1 : lon < 360) :
    (get_zodiac_info lon).isSome := by
  have hlo : -12 ≤ ⌊lon / 30⌋ := Int.le_floor.mpr (by push_cast; linarith)
  have hhi : ⌊lon / 30⌋ < 12 := Int.floor_lt.mpr (by push_cast; linarith)
  have hlen : (zodiac_signs.length : ℤ) = 12 := by rfl
  have hlen2 : (zodiac_signs_vi.length : ℤ) = 12 := by rfl
  rcases le_or_lt 0 ⌊lon / 30⌋ with hc | hc
  · have e1 := pyget_of_nonneg zodiac_signs ⌊lon / 30⌋ hc (by omega) ("")
    have e2 := pyget_of_nonneg zodiac_signs_vi ⌊lon / 30⌋ hc (by omega) ("")
    simp only [get_zodiac_info]
    rw [e1, e2]
    rfl
  · have e1 := pyget_of_neg zodiac_signs ⌊lon / 30⌋ (by omega) hc ("")
    have e2 := pyget_of_neg zodiac_signs_vi ⌊lon / 30⌋ (by omega) hc ("")
    simp only [get_zodiac_info]
    rw [e1, e2]
    rfl

lemma gzi_none {lon : ℚ} (h : 360 ≤ lon ∨ lon < -360) : get_zodiac_info lon = none := by
  have hlen : (zodiac_signs.length : ℤ) = 12 := by rfl
  have hidx : (12 : ℤ) ≤ ⌊lon / 30⌋ ∨ ⌊lon / 30⌋ < -12 := by
    rcases h with h | h
    · exact Or.inl (Int.le_floor.mpr (by push_cast; linarith))
    · exact Or.inr (Int.floor_lt.mpr (by push_cast; linarith))
  have e1 : pyget zodiac_signs ⌊lon / 30⌋ = none := pyget_none _ _ (by omega)
  simp only [get_zodiac_info]
  rw [e1]

/-- The truncations `int(...)` performed by `get_zodiac_info` agree with the
floor formulas of the spec: `degree_in_sign = pymod lon 30` and all three
truncated quantities are non-negative. -/
lemma gzi_formatted {lon : ℚ} {z : ZodiacInfo} (h : get_zodiac_info lon = some z) :
    z.degree_formatted =
      toString (specDeg z.degree_in_sign) ++ degSym ++
      pad2 (specMin z.degree_in_sign) ++ minSym ++
      pad2 (specSec z.degree_in_sign) ++ secSym := by
  obtain ⟨hidx, hdeg, hsign, hlon, hfmt⟩ := gzi_fields h
  have hv : 0 ≤ pymod lon 30 := pymod_nonneg lon 30 (by norm_num)
  rw [pyint_eq_floor hv] at hfmt
  have hva : 0 ≤ (pymod lon 30 - (⌊pymod lon 30⌋ : ℚ)) * 60 := by
    have := Int.floor_le (pymod lon 30)
    linarith
  rw [pyint_eq_floor hva] at hfmt
  have hvb : 0 ≤ ((pymod lon 30 - (⌊pymod lon 30⌋ : ℚ)) * 60 -
      (⌊(pymod lon 30 - (⌊pymod lon 30⌋ : ℚ)) * 60⌋ : ℚ)) * 60 := by
    have := Int.floor_le ((pymod lon 30 - (⌊pymod lon 30⌋ : ℚ)) * 60)
    linarith
  rw [pyint_eq_floor hvb] at hfmt
  rw [hdeg]
  exact hfmt

/-- The `D + M/60 + S/3600` recombination of the floor components
undershoots `v` by less than one arc-second. -/
lemma dms_close (v : ℚ) :
    |((specDeg v : ℚ) + (specMin v : ℚ) / 60 + (specSec v : ℚ) / 3600) - v| ≤ 1 / 3600 := by
  simp only [specDeg, specMin, specSec]
  set a : ℚ := (v - (⌊v⌋ : ℚ)) * 60 with ha
  set b : ℚ := (a - (⌊a⌋ : ℚ)) * 60 with hb
  have hb1 : (⌊b⌋ : ℚ) ≤ b := Int.floor_le b
  have hb2 : b < ⌊b⌋ + 1 := Int.lt_floor_add_one b
  have hveq : v = (⌊v⌋ : ℚ) + a / 60 := by rw [ha]; ring
  have haeq : a = (⌊a⌋ : ℚ) + b / 60 := by rw [hb]; ring
  rw [abs_le]
  constructor <;> linarith

/-- Claim C4: for every longitude `0 ≤ λ < 360`, `get_zodiac_info` succeeds
and returns `sign_index = ⌊λ/30⌋` (so `λ = 30` falls in sign 1 and `λ = 0`
in sign 0 with residual 0), `degree_in_sign = λ mod 30`, the sign name from
the table at that index, and the formatted string built by truncation with
zero-padded two-digit minutes and seconds. -/
theorem claim_C4_zodiac (lon : ℚ) (h0 : 0 ≤ lon) (h1 : lon < 360) : C4Post lon := by
  have hs := gzi_isSome lon (by linarith) h1
  rw [Option.isSome_iff_exists] at hs
  obtain ⟨z, hz⟩ := hs
  obtain ⟨hidx, hdeg, hsign, hlon, hfmt⟩ := gzi_fields hz
  have hlo : 0 ≤ ⌊lon / 30⌋ := Int.le_floor.mpr (by push_cast; linarith)
  have hhi : ⌊lon / 30⌋ < 12 := Int.floor_lt.mpr (by push_cast; linarith)
  unfold C4Post
  rw [hz]
  refine ⟨hidx, by omega, by omega, ?_, ?_, gzi_formatted hz⟩
  · rw [hdeg]; rfl
  · have e := pyget_of_nonneg zodiac_signs z.sign_index (by omega) (by rw [hidx]; exact_mod_cast hhi) ("")
    rw [e] at hsign
    injection hsign with hs2
    exact hs2.symm

/-- Witness for C4 at the boundary longitudes 0 and 30. -/
theorem claim_C4_zodiac_witness :
    (0 ≤ (0 : ℚ)) ∧ ((0 : ℚ) < 360) ∧ C4Post 0 ∧
    (0 ≤ (30 : ℚ)) ∧ ((30 : ℚ) < 360) ∧ C4Post 30 :=
  ⟨by norm_num, by norm_num, claim_C4_zodiac 0 (by norm_num) (by norm_num),
   by norm_num, by norm_num, claim_C4_zodiac 30 (by norm_num) (by norm_num)⟩

/-- Claim C9: for `0 ≤ λ < 360`, decoding the formatted `D°MM'SS"` string of
`get_zodiac_info` back to `D + MM/60 + SS/3600` reproduces `degree_in_sign`
to within `1/3600`. -/
theorem claim_C9_format_roundtrip (lon : ℚ) (h0 : 0 ≤ lon) (h1 : lon < 360) : C9Post lon := by
  have hs := gzi_isSome lon (by linarith) h1
  rw [Option.isSome_iff_exists] at hs
  obtain ⟨z, hz⟩ := hs
  unfold C9Post
  rw [hz]
  exact ⟨gzi_formatted hz, dms_close z.degree_in_sign⟩

/-- Witness for C9 at longitude 10.5 (= 10°30'00"). -/
theorem claim_C9_format_roundtrip_witness :
    (0 ≤ (21 / 2 : ℚ)) ∧ ((21 / 2 : ℚ) < 360) ∧ C9Post (21 / 2) :=
  ⟨by norm_num, by norm_num, claim_C9_format_roundtrip (21 / 2) (by norm_num) (by norm_num)⟩

/-- Claim C10: `get_zodiac_info` succeeds exactly for `-360 ≤ λ < 360`;
in range it behaves as `C10In` describes, and for `λ ≥ 360` or `λ < -360`
the table lookup raises an index error (modelled by `none`). -/
theorem claim_C10_index_bounds (lon : ℚ) :
    (-360 ≤ lon → lon < 360 → C10In lon) ∧
    ((360 ≤ lon ∨ lon < -360) → get_zodiac_info lon = none) := by
  constructor
  · intro h0 h1
    have hs := gzi_isSome lon h0 h1
    rw [Option.isSome_iff_exists] at hs
    obtain ⟨z, hz⟩ := hs
    obtain ⟨hidx, hdeg, hsign, hlon, hfmt⟩ := gzi_fields hz
    have hlo : -12 ≤ ⌊lon / 30⌋ := Int.le_floor.mpr (by push_cast; linarith)
    have hhi : ⌊lon / 30⌋ < 12 := Int.floor_lt.mpr (by push_cast; linarith)
    unfold C10In
    rw [hz]
    constructor
    · intro hpos
      have : 0 ≤ ⌊lon / 30⌋ := Int.le_floor.mpr (by push_cast; positivity)
      omega
    · intro hneg
      have hneg2 : ⌊lon / 30⌋ < 0 := Int.floor_lt.mpr (by push_cast; linarith)
      have hlen : ((zodiac_signs.length : ℤ)) = 12 := by rfl
      have e := pyget_of_neg zodiac_signs z.sign_index (by omega) (by omega) ("")
      rw [hlen] at e
      rw [e] at hsign
      injection hsign with hs2
      exact ⟨by omega, hs2.symm⟩
  · exact gzi_none

/-- Witness for C10: longitude −15 succeeds with a negative index, longitude
400 raises. -/
theorem claim_C10_index_bounds_witness :
    C10In (-15 : ℚ) ∧ get_zodiac_info (400 : ℚ) = none :=
  ⟨(claim_C10_index_bounds (-15)).1 (by norm_num) (by norm_num),
   (claim_C10_index_bounds 400).2 (by norm_num)⟩

lemma mem_mainPositions_name {jd : ℚ} {sid : ℤ → Option CalcResult}
    {calcLon : ℤ → ℚ → Option ℚ} {p : String × PlanetPos}
    (h : p ∈ mainPositions jd sid calcLon) : p.1 ∈ planets.map Prod.fst := by
  simp only [mainPositions, List.mem_filterMap] at h
  obtain ⟨pi, hpi, he⟩ := h
  simp only [calcEntry, Option.bind_eq_some, Option.map_eq_some'] at he
  obtain ⟨pos, _, z, _, hz⟩ := he
  rw [← hz]
  exact List.mem_map_of_mem _ hpi

lemma lookup_ketu_main (jd : ℚ) (sid : ℤ → Option CalcResult)
    (calcLon : ℤ → ℚ → Option ℚ) :
    List.lookup ("Ketu") (mainPositions jd sid calcLon) = none := by
  refine lookup_eq_none_of_forall _ _ fun p hp hk => ?_
  have := mem_mainPositions_name hp
  rw [hk] at this
  exact absurd this (by decide)

/-- `calculate_planetary_positions` never hits the unreachable raise in the
Ketu block: `(rahu_long + 180) % 360` always lies in `[0, 360)`, where
`get_zodiac_info` succeeds. -/
lemma cpp_isSome (jd : ℚ) (sid : ℤ → Option CalcResult) (calcLon : ℤ → ℚ → Option ℚ) :
    (calculate_planetary_positions jd sid calcLon).isSome := by
  simp only [calculate_planetary_positions]
  split
  · rfl
  · rename_i rahu hR
    have h0 : 0 ≤ pymod (rahu.longitude + 180) 360 := pymod_nonneg _ _ (by norm_num)
    have h1 : pymod (rahu.longitude + 180) 360 < 360 := pymod_lt _ _ (by norm_num)
    have hz := gzi_isSome (pymod (rahu.longitude + 180) 360) (by linarith) h1
    rw [Option.isSome_iff_exists] at hz
    obtain ⟨z, hz⟩ := hz
    rw [hz]
    rfl

/-- Claim C1: in every snapshot produced by `calculate_planetary_positions`,
Ketu is present iff Rahu is, and when both are present Ketu's longitude is
`(rahu_longitude + 180) mod 360` exactly, its latitude and longitudinal speed
are the negations of Rahu's, its distance equals Rahu's, and its retrograde
flag and motion letter equal Rahu's. -/
theorem claim_C1_ketu_mirror (jd : ℚ) (sid : ℤ → Option CalcResult)
    (calcLon : ℤ → ℚ → Option ℚ) (snap : Snapshot)
    (h : calculate_planetary_positions jd sid calcLon = some snap) : KetuMirror snap := by
  simp only [calculate_planetary_positions] at h
  split at h
  · rename_i hR
    injection h with h2
    subst h2
    unfold KetuMirror
    rw [hR, lookup_ketu_main]
    trivial
  · rename_i rahu hR
    split at h
    · exact absurd h (by simp)
    · rename_i kz hK
      injection h with h2
      subst h2
      unfold KetuMirror
      rw [lookup_append, hR, lookup_append, lookup_ketu_main]
      exact ⟨rfl, rfl, rfl, rfl, rfl, rfl⟩

/-- Witness for C1 on a concrete full snapshot. -/
theorem claim_C1_ketu_mirror_witness : KetuMirror wSnap :=
  claim_C1_ketu_mirror 0 wSid wLon wSnap (by decide)

lemma wrap_eq (x : ℚ) :
    (if 180 < x then x - 360 else if x < -180 then x + 360 else x) = specWrap x := by
  unfold specWrap
  split_ifs <;> rcases abs_cases x with ⟨he, hs⟩ | ⟨he, hs⟩ <;> linarith

/-- Claim C5: `is_retrograde` samples the longitude at `jd` and `jd + 1`,
wraps the difference by a single ±360 when its magnitude exceeds 180, and
returns true iff the wrapped value is strictly negative; a failed probe
yields false (direct motion). -/
theorem claim_C5_retrograde (calcLon : ℤ → ℚ → Option ℚ) (planet_id : ℤ) (jd : ℚ) :
    is_retrograde calcLon planet_id jd =
      match calcLon planet_id jd, calcLon planet_id (jd + 1) with
      | some l0, some l1 => decide (specWrap (l1 - l0) < 0)
      | _, _ => false := by
  unfold is_retrograde
  cases calcLon planet_id jd with
  | none => rfl
  | some l0 =>
    cases calcLon planet_id (jd + 1) with
    | none => rfl
    | some l1 =>
      simp only [decide_eq_decide]
      rw [wrap_eq]

/-- Claim C3: with no previous snapshot no event is emitted, and with a
previous snapshot an event is emitted exactly for the planets present in
both snapshots whose `sign_index` changed, recording the previous sign as
`from_sign`, the current sign as `to_sign`, and the post-transition degree
string and (rounded) longitude. -/
theorem claim_C3_ingress_events (positions : Snapshot) (prevs : Snapshot) :
    detect_ingress positions none = [] ∧
    ∀ e, e ∈ detect_ingress positions (some prevs) ↔
      ∃ p pos ppos, (p, pos) ∈ positions ∧ List.lookup p prevs = some ppos ∧
        pos.sign_index ≠ ppos.sign_index ∧
        e = { event := "Ingress", planet := p, from_sign := ppos.zodiac_sign,
              to_sign := pos.zodiac_sign, degree := pos.degree_formatted,
              longitude := pyround 6 pos.longitude } := by
  refine ⟨rfl, fun e => ?_⟩
  simp only [detect_ingress]
  by_cases hp : prevs.isEmpty
  · rw [if_pos hp]
    simp only [List.not_mem_nil, false_iff]
    rintro ⟨p, pos, ppos, hmem, hlk, _, _⟩
    rw [List.isEmpty_iff] at hp
    subst hp
    simp [List.lookup] at hlk
  · rw [if_neg hp, List.mem_filterMap]
    constructor
    · rintro ⟨⟨p, pos⟩, hmem, hf⟩
      simp only [Option.bind_eq_some] at hf
      obtain ⟨ppos, hlk, hif⟩ := hf
      by_cases hsi : pos.sign_index ≠ ppos.sign_index
      · rw [if_pos hsi] at hif
        injection hif with hif
        exact ⟨p, pos, ppos, hmem, hlk, hsi, hif.symm⟩
      · rw [if_neg hsi] at hif
        simp at hif
    · rintro ⟨p, pos, ppos, hmem, hlk, hsi, rfl⟩
      refine ⟨(p, pos), hmem, ?_⟩
      simp only [Option.bind_eq_some]
      exact ⟨ppos, hlk, by rw [if_pos hsi]⟩

/-- Witness for C3: a Cancer → Leo Moon ingress is emitted, and the first
sample emits nothing. -/
theorem claim_C3_ingress_events_witness :
    detect_ingress wCurSnap none = [] ∧
    { event := "Ingress", planet := "Moon", from_sign := "Cancer", to_sign := "Leo",
      degree := "", longitude := pyround 6 125 } ∈ detect_ingress wCurSnap (some wPrevSnap) :=
  ⟨(claim_C3_ingress_events wCurSnap wPrevSnap).1,
   ((claim_C3_ingress_events wCurSnap wPrevSnap).2 _).mpr
     ⟨"Moon", wMoonCur, wMoonPrev, by decide, by decide, by decide, by decide⟩⟩

lemma mem_allPairs {l : List α} {pq : α × α} (h : pq ∈ allPairs l) :
    pq.1 ∈ l ∧ pq.2 ∈ l := by
  induction l with
  | nil => simp [allPairs] at h
  | cons x xs ih =>
    simp only [allPairs, List.mem_append, List.mem_map] at h
    rcases h with ⟨y, hy, hpq⟩ | h
    · rw [← hpq]
      exact ⟨List.mem_cons_self .., List.mem_cons_of_mem _ hy⟩
    · obtain ⟨h1, h2⟩ := ih h
      exact ⟨List.mem_cons_of_mem _ h1, List.mem_cons_of_mem _ h2⟩

lemma shortArc_nonneg (l1 l2 : ℚ) : 0 ≤ shortArc l1 l2 := by
  simp only [shortArc]
  have h0 := pymod_nonneg |l1 - l2| 360 (by norm_num)
  have h1 := pymod_lt |l1 - l2| 360 (by norm_num)
  split_ifs <;> linarith

lemma shortArc_le (l1 l2 : ℚ) : shortArc l1 l2 ≤ 180 := by
  simp only [shortArc]
  have h0 := pymod_nonneg |l1 - l2| 360 (by norm_num)
  have h1 := pymod_lt |l1 - l2| 360 (by norm_num)
  split_ifs <;> linarith

lemma mem_pairAspects {p1 p2 : String × PlanetPos} {orbArg : ℚ} {e : AspectEvent}
    (h : e ∈ pairAspects p1 p2 orbArg) :
    e.planet1 = p1.1 ∧ e.planet2 = p2.1 ∧
    ∃ ta ∈ aspect_types, e.exact_angle = ta.2 ∧
      |shortArc p1.2.longitude p2.2.longitude - ta.2| ≤ orbArg ∧
      e.difference = pyround 4 (shortArc p1.2.longitude p2.2.longitude) ∧
      e.orb = pyround 4 |shortArc p1.2.longitude p2.2.longitude - ta.2| := by
  unfold pairAspects at h
  split_ifs at h with hskip
  · simp at h
  · rw [List.mem_filterMap] at h
    obtain ⟨ta, hta, hf⟩ := h
    rw [Option.ite_none_right_eq_some] at hf
    obtain ⟨hcond, hf⟩ := hf
    injection hf with hf
    rw [← hf]
    exact ⟨rfl, rfl, ta, hta, rfl, hcond, rfl, rfl⟩

/-- Claim C2: every emitted aspect event names a pair of entries of the
snapshot whose shortest-arc separation `d` (that is,
`|λ₁ − λ₂| mod 360`, reflected to `360 − d` when above 180) lies in
`[0, 180]` and is within `orb` of the event's exact angle; the recorded
`difference` is that `d` rounded to 4 decimals. -/
theorem claim_C2_aspect_bounds (positions : Snapshot) (orbArg : ℚ) (e : AspectEvent)
    (h : e ∈ detect_aspects positions orbArg) :
    ∃ pos1 pos2, (e.planet1, pos1) ∈ positions ∧ (e.planet2, pos2) ∈ positions ∧
      0 ≤ shortArc pos1.longitude pos2.longitude ∧
      shortArc pos1.longitude pos2.longitude ≤ 180 ∧
      |shortArc pos1.longitude pos2.longitude - e.exact_angle| ≤ orbArg ∧
      e.difference = pyround 4 (shortArc pos1.longitude pos2.longitude) := by
  unfold detect_aspects at h
  rw [List.mem_flatMap] at h
  obtain ⟨pq, hpq, he⟩ := h
  obtain ⟨hm1, hm2⟩ := mem_allPairs hpq
  obtain ⟨hp1, hp2, ta, hta, hangle, hcond, hdiff, horb⟩ := mem_pairAspects he
  refine ⟨pq.1.2, pq.2.2, ?_, ?_, shortArc_nonneg _ _, shortArc_le _ _, ?_, hdiff⟩
  · rw [hp1, Prod.mk.eta]
    exact hm1
  · rw [hp2, Prod.mk.eta]
    exact hm2
  · rw [hangle]
    exact hcond

/-- Witness for C2: the concrete Conjunction at difference 0.8. -/
theorem claim_C2_aspect_bounds_witness :
    ∃ pos1 pos2, (wAspEvent.planet1, pos1) ∈ wAspSnap ∧ (wAspEvent.planet2, pos2) ∈ wAspSnap ∧
      0 ≤ shortArc pos1.longitude pos2.longitude ∧
      shortArc pos1.longitude pos2.longitude ≤ 180 ∧
      |shortArc pos1.longitude pos2.longitude - wAspEvent.exact_angle| ≤ 1 ∧
      wAspEvent.difference = pyround 4 (shortArc pos1.longitude pos2.longitude) :=
  claim_C2_aspect_bounds wAspSnap 1 wAspEvent (List.get_mem _ _ _)

/-- Claim C6: no emitted aspect event pairs Rahu with Ketu, in either
order. -/
theorem claim_C6_no_rahu_ketu (positions : Snapshot) (orbArg : ℚ) :
    (detect_aspects positions orbArg).filter
      (fun e => (e.planet1 == "Rahu" && e.planet2 == "Ketu") ||
                (e.planet1 == "Ketu" && e.planet2 == "Rahu")) = [] := by
  rw [List.filter_eq_nil_iff]
  intro e he
  unfold detect_aspects at he
  rw [List.mem_flatMap] at he
  obtain ⟨pq, _, he⟩ := he
  unfold pairAspects at he
  split_ifs at he with hskip
  · simp at he
  · rw [List.mem_filterMap] at he
    obtain ⟨ta, _, hf⟩ := he
    rw [Option.ite_none_right_eq_some] at hf
    obtain ⟨hcond, hf⟩ := hf
    injection hf with hf
    rw [← hf]
    simp only [Bool.or_eq_true, Bool.and_eq_true, beq_iff_eq, not_or, not_and]
    push_neg at hskip
    exact ⟨fun ha hb => hskip.1 ha hb, fun ha hb => hskip.2 ha hb⟩

/-- With an orb below 15°, one pair can match at most one of the five table
angles (adjacent angles are 30° apart). -/
lemma pairAspects_length_le_one (p1 p2 : String × PlanetPos) {orbArg : ℚ}
    (h : orbArg < 15) : (pairAspects p1 p2 orbArg).length ≤ 1 := by
  by_cases hskip : (p1.1 = "Rahu" ∧ p2.1 = "Ketu") ∨ (p1.1 = "Ketu" ∧ p2.1 = "Rahu")
  · simp [pairAspects, hskip]
  · simp only [pairAspects, if_neg hskip, aspect_types, List.filterMap_cons,
      List.filterMap_nil]
    set D := shortArc p1.2.longitude p2.2.longitude with hD
    rcases lt_or_le D 30 with hr | hr
    · rw [if_neg (show ¬(|D - 180| ≤ orbArg) by intro hc; rw [abs_le] at hc; linarith),
        if_neg (show ¬(|D - 90| ≤ orbArg) by intro hc; rw [abs_le] at hc; linarith),
        if_neg (show ¬(|D - 120| ≤ orbArg) by intro hc; rw [abs_le] at hc; linarith),
        if_neg (show ¬(|D - 60| ≤ orbArg) by intro hc; rw [abs_le] at hc; linarith)]
      split_ifs <;> simp
    · rcases lt_or_le D 75 with hr2 | hr2
      · rw [if_neg (show ¬(|D - 0| ≤ orbArg) by intro hc; rw [abs_le] at hc; linarith),
          if_neg (show ¬(|D - 180| ≤ orbArg) by intro hc; rw [abs_le] at hc; linarith),
          if_neg (show ¬(|D - 90| ≤ orbArg) by intro hc; rw [abs_le] at hc; linarith),
          if_neg (show ¬(|D - 120| ≤ orbArg) by intro hc; rw [abs_le] at hc; linarith)]
        split_ifs <;> simp
      · rcases lt_or_le D 105 with hr3 | hr3
        · rw [if_neg (show ¬(|D - 0| ≤ orbArg) by intro hc; rw [abs_le] at hc; linarith),
            if_neg (show ¬(|D - 180| ≤ orbArg) by intro hc; rw [abs_le] at hc; linarith),
            if_neg (show ¬(|D - 120| ≤ orbArg) by intro hc; rw [abs_le] at hc; linarith),
            if_neg (show ¬(|D - 60| ≤ orbArg) by intro hc; rw [abs_le] at hc; linarith)]
          split_ifs <;> simp
        · rcases lt_or_le D 150 with hr4 | hr4
          · rw [if_neg (show ¬(|D - 0| ≤ orbArg) by intro hc; rw [abs_le] at hc; linarith),
              if_neg (show ¬(|D - 180| ≤ orbArg) by intro hc; rw [abs_le] at hc; linarith),
              if_neg (show ¬(|D - 90| ≤ orbArg) by intro hc; rw [abs_le] at hc; linarith),
              if_neg (show ¬(|D - 60| ≤ orbArg) by intro hc; rw [abs_le] at hc; linarith)]
            split_ifs <;> simp
          · rw [if_neg (show ¬(|D - 0| ≤ orbArg) by intro hc; rw [abs_le] at hc; linarith),
              if_neg (show ¬(|D - 90| ≤ orbArg) by intro hc; rw [abs_le] at hc; linarith),
              if_neg (show ¬(|D - 120| ≤ orbArg) by intro hc; rw [abs_le] at hc; linarith),
              if_neg (show ¬(|D - 60| ≤ orbArg) by intro hc; rw [abs_le] at hc; linarith)]
            split_ifs <;> simp

lemma pairwise_of_length_le_one {l : List α} {R : α → α → Prop} (h : l.length ≤ 1) :
    l.Pairwise R := by
  match l with
  | [] => exact List.Pairwise.nil
  | [a] => simp
  | a :: b :: t => simp at h

lemma detect_aspects_cons (x : String × PlanetPos) (xs : Snapshot) (orbArg : ℚ) :
    detect_aspects (x :: xs) orbArg =
      (xs.flatMap fun y => pairAspects x y orbArg) ++ detect_aspects xs orbArg := by
  simp only [detect_aspects, allPairs, List.flatMap_append, List.flatMap_map,
    Function.comp]

lemma detect_aspects_names {positions : Snapshot} {orbArg : ℚ} {e : AspectEvent}
    (h : e ∈ detect_aspects positions orbArg) :
    e.planet1 ∈ positions.map Prod.fst ∧ e.planet2 ∈ positions.map Prod.fst := by
  unfold detect_aspects at h
  rw [List.mem_flatMap] at h
  obtain ⟨pq, hpq, he⟩ := h
  obtain ⟨hm1, hm2⟩ := mem_allPairs hpq
  obtain ⟨hp1, hp2, _⟩ := mem_pairAspects he
  constructor
  · rw [hp1]
    exact List.mem_map_of_mem _ hm1
  · rw [hp2]
    exact List.mem_map_of_mem _ hm2

lemma pairwise_flatMap_pairs (x : String × PlanetPos) {orbArg : ℚ} (h15 : orbArg < 15) :
    ∀ xs : Snapshot, (xs.map Prod.fst).Nodup →
      (xs.flatMap fun y => pairAspects x y orbArg).Pairwise
        (fun e1 e2 => e1.planet1 ≠ e2.planet1 ∨ e1.planet2 ≠ e2.planet2) := by
  intro xs
  induction xs with
  | nil => intro _; simp
  | cons y ys ih =>
    intro hnd
    rw [List.flatMap_cons, List.pairwise_append]
    simp only [List.map_cons, List.nodup_cons] at hnd
    refine ⟨pairwise_of_length_le_one (pairAspects_length_le_one x y h15), ih hnd.2, ?_⟩
    intro e1 he1 e2 he2
    obtain ⟨_, hp2, _⟩ := mem_pairAspects he1
    rw [List.mem_flatMap] at he2
    obtain ⟨y2, hy2, he2⟩ := he2
    obtain ⟨_, hq2, _⟩ := mem_pairAspects he2
    right
    rw [hp2, hq2]
    intro hc
    exact hnd.1 (by rw [hc]; exact List.mem_map_of_mem _ hy2)

/-- Amended claim C8: two aspects already become possible for one pair once
`orb ≥ 15°` (not 60°); below 15° — in particular at the default 1.0° — no
two emitted events share a planet pair. -/
theorem claim_C8_at_most_one (positions : Snapshot) (orbArg : ℚ) (h15 : orbArg < 15)
    (hnd : (positions.map Prod.fst).Nodup) :
    (detect_aspects positions orbArg).Pairwise
      (fun e1 e2 => e1.planet1 ≠ e2.planet1 ∨ e1.planet2 ≠ e2.planet2) := by
  revert hnd
  induction positions with
  | nil => intro _; simp [detect_aspects, allPairs]
  | cons x xs ih =>
    intro hnd
    rw [detect_aspects_cons, List.pairwise_append]
    simp only [List.map_cons, List.nodup_cons] at hnd
    refine ⟨pairwise_flatMap_pairs x h15 xs hnd.2, ih hnd.2, ?_⟩
    intro e1 he1 e2 he2
    rw [List.mem_flatMap] at he1
    obtain ⟨y, hy, he1⟩ := he1
    obtain ⟨hp1, _, _⟩ := mem_pairAspects he1
    left
    rw [hp1]
    intro hc
    exact hnd.1 (by rw [hc]; exact (detect_aspects_names he2).1)

/-- Counterexample to claim C8 as stated: with orb 15° (≤ 60°) the single
pair Sun/Moon yields two aspects, a Square and a Sextile. -/
theorem claim_C8_counterexample :
    ((detect_aspects cAspSnap 15).map fun e => (e.planet1, e.planet2, e.exact_angle)) =
      [("Sun", "Moon", (90 : ℚ)), ("Sun", "Moon", 60)] ∧ (15 : ℚ) ≤ 60 := by
  constructor
  · decide
  · norm_num

/-- Witness for the amended C8 at the default orb 1. -/
theorem claim_C8_at_most_one_witness :
    (detect_aspects cAspSnap 1).Pairwise
      (fun e1 e2 => e1.planet1 ≠ e2.planet1 ∨ e1.planet2 ≠ e2.planet2) :=
  claim_C8_at_most_one cAspSnap 1 (by norm_num) (by decide)

lemma mainPositions_WF {jd : ℚ} {sid : ℤ → Option CalcResult}
    {calcLon : ℤ → ℚ → Option ℚ} {p : String × PlanetPos}
    (hp : p ∈ mainPositions jd sid calcLon) :
    pyget zodiac_signs p.2.sign_index = some p.2.zodiac_sign := by
  simp only [mainPositions, List.mem_filterMap] at hp
  obtain ⟨pi, _, he⟩ := hp
  simp only [calcEntry, Option.bind_eq_some, Option.map_eq_some'] at he
  obtain ⟨pos, _, z, hz, hzp⟩ := he
  rw [← hzp]
  exact (gzi_fields hz).2.2.1

lemma snapWF_of_cpp {jd : ℚ} {sid : ℤ → Option CalcResult} {calcLon : ℤ → ℚ → Option ℚ}
    {s : Snapshot} (h : calculate_planetary_positions jd sid calcLon = some s) :
    SnapWF s := by
  simp only [calculate_planetary_positions] at h
  split at h
  · injection h with h2
    subst h2
    exact fun p hp => mainPositions_WF hp
  · rename_i rahu hR
    split at h
    · exact absurd h (by simp)
    · rename_i kz hK
      injection h with h2
      subst h2
      intro p hp
      rw [List.mem_append] at hp
      rcases hp with hp | hp
      · exact mainPositions_WF hp
      · rw [List.mem_singleton] at hp
        subst hp
        exact (gzi_fields hK).2.2.1

lemma map_fst_filterMap_sublist {β γ : Type} (f : (String × β) → Option (String × γ))
    (l : List (String × β)) (hf : ∀ a p, f a = some p → p.1 = a.1) :
    ((l.filterMap f).map Prod.fst).Sublist (l.map Prod.fst) := by
  induction l with
  | nil => simp
  | cons a t ih =>
    rw [List.filterMap_cons]
    cases hfa : f a with
    | none =>
      rw [List.map_cons]
      exact List.Sublist.cons _ ih
    | some p =>
      rw [List.map_cons, List.map_cons, hf a p hfa]
      exact List.Sublist.cons₂ _ ih

lemma keys_cpp_nodup {jd : ℚ} {sid : ℤ → Option CalcResult} {calcLon : ℤ → ℚ → Option ℚ}
    {s : Snapshot} (h : calculate_planetary_positions jd sid calcLon = some s) :
    (s.map Prod.fst).Nodup := by
  have hplan : (planets.map Prod.fst).Nodup := by decide
  have hmain : ((mainPositions jd sid calcLon).map Prod.fst).Sublist (planets.map Prod.fst) :=
    map_fst_filterMap_sublist _ _ fun a p hp => by
      simp only [calcEntry, Option.bind_eq_some, Option.map_eq_some'] at hp
      obtain ⟨pos, _, z, _, hzp⟩ := hp
      rw [← hzp]
  have hmainnd : ((mainPositions jd sid calcLon).map Prod.fst).Nodup :=
    List.Nodup.sublist hmain hplan
  simp only [calculate_planetary_positions] at h
  split at h
  · injection h with h2
    subst h2
    exact hmainnd
  · rename_i rahu hR
    split at h
    · exact absurd h (by simp)
    · injection h with h2
      subst h2
      rw [List.map_append, List.nodup_append]
      refine ⟨hmainnd, by simp, ?_⟩
      intro a ha hb
      simp only [List.map_cons, List.map_nil, List.mem_singleton] at hb
      subst hb
      exact absurd (hmain.subset ha) (by decide)

lemma ingress_filterMap_notmem (P : String) (prev : Snapshot) :
    ∀ t : Snapshot, P ∉ t.map Prod.fst →
      (t.filterMap fun pp =>
        ((List.lookup pp.1 prev).bind fun ppos =>
          if pp.2.sign_index ≠ ppos.sign_index then
            some ({ event := "Ingress", planet := pp.1, from_sign := ppos.zodiac_sign,
                    to_sign := pp.2.zodiac_sign, degree := pp.2.degree_formatted,
                    longitude := pyround 6 pp.2.longitude } : IngressEvent)
          else none).filter fun e => e.planet == P) = [] := by
  intro t hP
  rw [List.filterMap_eq_nil_iff]
  intro pp hpp
  have hne : pp.1 ≠ P := fun hc => hP (by rw [← hc]; exact List.mem_map_of_mem _ hpp)
  cases List.lookup pp.1 prev with
  | none => rfl
  | some q =>
    simp only [Option.some_bind]
    by_cases hsi : pp.2.sign_index ≠ q.sign_index
    · rw [if_pos hsi]
      simp [Option.filter, hne]
    · rw [if_neg hsi]
      rfl

lemma detect_ingress_some_ne (positions prev : Snapshot) (h : prev.isEmpty = false) :
    detect_ingress positions (some prev) =
      positions.filterMap fun pp =>
        (List.lookup pp.1 prev).bind fun ppos =>
          if pp.2.sign_index ≠ ppos.sign_index then
            some { event := "Ingress", planet := pp.1, from_sign := ppos.zodiac_sign,
                   to_sign := pp.2.zodiac_sign, degree := pp.2.degree_formatted,
                   longitude := pyround 6 pp.2.longitude }
          else none := by
  simp only [detect_ingress]
  rw [if_neg (by simp [h])]

lemma filter_detect_ingress (P : String) {prev : Snapshot} {ppos : PlanetPos}
    (hprev : List.lookup P prev = some ppos) :
    ∀ cur : Snapshot, (cur.map Prod.fst).Nodup →
      ∀ {pos : PlanetPos}, List.lookup P cur = some pos →
      ((detect_ingress cur (some prev)).filter fun e => e.planet == P) =
        (if pos.sign_index ≠ ppos.sign_index then
          [{ event := "Ingress", planet := P, from_sign := ppos.zodiac_sign,
             to_sign := pos.zodiac_sign, degree := pos.degree_formatted,
             longitude := pyround 6 pos.longitude }]
        else []) := by
  have hprevne : prev.isEmpty = false := by
    cases prev with
    | nil => simp [List.lookup] at hprev
    | cons a t => rfl
  intro cur
  induction cur with
  | nil => intro _ pos hpos; simp [List.lookup] at hpos
  | cons pp rest ih =>
    intro hnd pos hpos
    rw [detect_ingress_some_ne _ _ hprevne, List.filter_filterMap, List.filterMap_cons]
    simp only [List.map_cons, List.nodup_cons] at hnd
    obtain ⟨k, v⟩ := pp
    by_cases hk : P = k
    · subst hk
      have hpos2 : pos = v := by
        simp only [List.lookup, beq_self_eq_true] at hpos
        injection hpos with h2
        exact h2.symm
      subst hpos2
      have htail := ingress_filterMap_notmem P prev rest hnd.1
      rw [hprev]
      simp only [Option.some_bind]
      by_cases hsi : pos.sign_index ≠ ppos.sign_index
      · rw [if_pos hsi, if_pos hsi]
        rw [show Option.filter (fun e => e.planet == P)
            (some ({ event := "Ingress", planet := P, from_sign := ppos.zodiac_sign,
                     to_sign := pos.zodiac_sign, degree := pos.degree_formatted,
                     longitude := pyround 6 pos.longitude } : IngressEvent)) =
            some ({ event := "Ingress", planet := P, from_sign := ppos.zodiac_sign,
                    to_sign := pos.zodiac_sign, degree := pos.degree_formatted,
                    longitude := pyround 6 pos.longitude } : IngressEvent) from by
          simp [Option.filter]]
        rw [htail]
      · rw [if_neg hsi, if_neg hsi]
        rw [show Option.filter (fun e => e.planet == P) (none : Option IngressEvent) =
            none from rfl]
        exact htail
    · have hlk : List.lookup P rest = some pos := by
        have hkb : (P == k) = false := by simp [hk]
        simp only [List.lookup, hkb] at hpos
        exact hpos
      have hne : (k, v).1 ≠ P := fun hc => hk hc.symm
      have hhead : ((List.lookup (k, v).1 prev).bind fun q =>
          if (k, v).2.sign_index ≠ q.sign_index then
            some ({ event := "Ingress", planet := (k, v).1, from_sign := q.zodiac_sign,
                    to_sign := (k, v).2.zodiac_sign, degree := (k, v).2.degree_formatted,
                    longitude := pyround 6 (k, v).2.longitude } : IngressEvent)
          else none).filter (fun e => e.planet == P) = none := by
        cases List.lookup (k, v).1 prev with
        | none => rfl
        | some q =>
          simp only [Option.some_bind]
          by_cases hsi : (k, v).2.sign_index ≠ q.sign_index
          · rw [if_pos hsi]
            simp [Option.filter, hne]
          · rw [if_neg hsi]
            rfl
      rw [hhead]
      rw [← List.filter_filterMap, ← detect_ingress_some_ne rest prev hprevne]
      exact ih hnd.2 hlk

lemma snapAt_eq (g : GridStep) :
    calculate_planetary_positions g.jd g.sid g.calcLon = some (snapAt g) := by
  have h := cpp_isSome g.jd g.sid g.calcLon
  rw [Option.isSome_iff_exists] at h
  obtain ⟨s, hs⟩ := h
  simp only [snapAt, hs]
  rfl

lemma ingress_chain_aux (P : String) :
    ∀ (snaps : List Snapshot) (prev : Snapshot) (ppos : PlanetPos),
      List.lookup P prev = some ppos → SnapWF prev →
      (∀ s ∈ snaps, (s.map Prod.fst).Nodup ∧ SnapWF s ∧ (List.lookup P s).isSome) →
      ((ingressStream snaps (some prev)).filter fun e => e.planet == P).Chain'
          (fun e1 e2 => e1.to_sign = e2.from_sign) ∧
        ∀ e, ((ingressStream snaps (some prev)).filter fun e => e.planet == P).head? = some e →
          e.from_sign = ppos.zodiac_sign := by
  intro snaps
  induction snaps with
  | nil =>
    intro prev ppos _ _ _
    exact ⟨List.chain'_nil, by intro e he; simp [ingressStream] at he⟩
  | cons s rest ih =>
    intro prev ppos hprev hWFprev hall
    obtain ⟨hnd, hWF, hpres⟩ := hall s (List.mem_cons_self ..)
    rw [Option.isSome_iff_exists] at hpres
    obtain ⟨pos, hpos⟩ := hpres
    have hstep := filter_detect_ingress P hprev s hnd hpos
    have ihr := ih s pos hpos hWF fun s2 hs2 => hall s2 (List.mem_cons_of_mem _ hs2)
    simp only [ingressStream]
    rw [List.filter_append, hstep]
    by_cases hsi : pos.sign_index ≠ ppos.sign_index
    · rw [if_pos hsi, List.singleton_append]
      constructor
      · rw [List.chain'_cons']
        refine ⟨?_, ihr.1⟩
        intro e2 he2
        rw [Option.mem_def] at he2
        have h2 := ihr.2 e2 he2
        rw [h2]
      · intro e he
        rw [List.head?_cons] at he
        injection he with he
        rw [← he]
    · rw [if_neg hsi, List.nil_append]
      push_neg at hsi
      refine ⟨ihr.1, ?_⟩
      intro e he
      have h2 := ihr.2 e he
      rw [h2]
      have w1 : pyget zodiac_signs pos.sign_index = some pos.zodiac_sign :=
        hWF (P, pos) (lookup_mem hpos)
      have w2 : pyget zodiac_signs ppos.sign_index = some ppos.zodiac_sign :=
        hWFprev (P, ppos) (lookup_mem hprev)
      rw [hsi] at w1
      rw [w2] at w1
      injection w1 with weq
      exact weq.symm

/-- Amended claim C7: in every run of the monthly driver, for every planet
that is present in each snapshot of the run, the ingress events restricted
to that planet form a chain — each event's `from_sign` equals the preceding
event's `to_sign` — with the previous-snapshot reference advancing on every
grid step whether or not an event was emitted.  (Without the presence
proviso the chain can break across snapshots where the engine failed for
that planet; see the counterexample.) -/
theorem claim_C7_ingress_chain (grid : List GridStep) (P : String)
    (hpres : ∀ g ∈ grid, (List.lookup P (snapAt g)).isSome) :
    ((monthly_ingress grid).filter fun e => e.planet == P).Chain'
      (fun e1 e2 => e1.to_sign = e2.from_sign) := by
  cases grid with
  | nil => simp [monthly_ingress, ingressStream]
  | cons g rest =>
    have h0 := hpres g (List.mem_cons_self ..)
    rw [Option.isSome_iff_exists] at h0
    obtain ⟨pos0, hpos0⟩ := h0
    have hall : ∀ s ∈ rest.map snapAt,
        (s.map Prod.fst).Nodup ∧ SnapWF s ∧ (List.lookup P s).isSome := by
      intro s hs
      rw [List.mem_map] at hs
      obtain ⟨g2, hg2, rfl⟩ := hs
      exact ⟨keys_cpp_nodup (snapAt_eq g2), snapWF_of_cpp (snapAt_eq g2),
        hpres g2 (List.mem_cons_of_mem _ hg2)⟩
    have haux := (ingress_chain_aux P (rest.map snapAt) (snapAt g) pos0 hpos0
      (snapWF_of_cpp (snapAt_eq g)) hall).1
    simpa [monthly_ingress, List.map_cons, ingressStream, detect_ingress,
      List.nil_append] using haux

lemma not_chain_of_pairs {l : List IngressEvent}
    (h : l.map (fun e => (e.from_sign, e.to_sign)) =
      [("Gemini", "Cancer"), ("Virgo", "Libra")]) :
    ¬ l.Chain' (fun e1 e2 => e1.to_sign = e2.from_sign) := by
  match l, h with
  | [], h => simp at h
  | [a], h => simp at h
  | a :: b :: c :: t, h => simp at h
  | [e1, e2], h =>
    simp only [List.map_cons, List.map_nil, List.cons.injEq, Prod.mk.injEq,
      and_true] at h
    intro hch
    rw [List.chain'_cons] at hch
    have hr := hch.1
    rw [h.1.2, h.2.1] at hr
    exact absurd hr (by decide)

/-- Counterexample to claim C7 as stated: on the run `cGrid` the Moon's
ingress stream is Gemini→Cancer followed by Virgo→Libra, so the second
event's `from_sign` (Virgo) differs from the first event's `to_sign`
(Cancer) and the stream is not a chain. -/
theorem claim_C7_counterexample :
    ((monthly_ingress cGrid).filter fun e => e.planet == "Moon").map
        (fun e => (e.from_sign, e.to_sign)) = [("Gemini", "Cancer"), ("Virgo", "Libra")] ∧
    ¬ ((monthly_ingress cGrid).filter fun e => e.planet == "Moon").Chain'
        (fun e1 e2 => e1.to_sign = e2.from_sign) := by
  constructor
  · decide
  · exact not_chain_of_pairs (by decide)

/-- Witness for the amended C7 on a run with the Moon always present. -/
theorem claim_C7_ingress_chain_witness :
    ((monthly_ingress wGrid).filter fun e => e.planet == "Moon").Chain'
      (fun e1 e2 => e1.to_sign = e2.from_sign) :=
  claim_C7_ingress_chain wGrid ("Moon") (by decide)

end Ephemeris
